import Mathlib

/-!
Verification development for the SEC fundamentals ETL-and-scoring pipeline.

The definitions below are a shallow embedding of the Python sources
`build_fundamentals_tall.py` (quarterly-statement normalizer and batch job)
and `pages/1_Financial_Health_Monitoring.py` (cross-sectional health scoring
and the custom scoring tab).  Machine floats are modelled as rationals
(`ℚ`); a pandas `NaN` cell is `Option.none`; a pandas DataFrame is a list of
records.  Pandas primitives used by the source are embedded with their
documented semantics:

* `Series.rank(pct=True, na_option="bottom")`: every entry (including NaN)
  receives an average-method rank; NaN entries are placed after all numbers
  (they receive the highest ranks); the percentile denominator is the full
  column length.
* `Series.rank(pct=True)` (default `na_option="keep"`): NaN entries keep a
  NaN rank and the percentile denominator is the count of non-NaN entries.
* `pivot_table(aggfunc="first", dropna=True)`: groups by (index, column)
  keys, keeps the first non-null value of each group (pandas `first` skips
  nulls), and drops index rows / columns whose cells are all null.
* `mean(skipna=True)`: the mean of the non-null entries, null if none.
-/

/-- A calendar date as used for statement period ends (`pd.Timestamp`):
only year and month matter for fiscal-period labelling. -/
structure Date where
  year : ℕ
  month : ℕ
  day : ℕ
deriving DecidableEq, Repr

/-- `quarter_label` from `build_fundamentals_tall.py`: convert a date to a
fiscal period label, e.g. `2023Q4`; quarter is `(month - 1) // 3 + 1`. -/
def quarterLabel (d : Date) : String :=
  toString d.year ++ "Q" ++ toString ((d.month - 1) / 3 + 1)

/-- One row of the tall (long-format) dataset: the dict appended by
`melt_quarterly` (the `PeriodEnd` column is irrelevant to every claim and is
omitted; `FiscalPeriod` is derived from it by `quarterLabel`). -/
structure FundamentalRecord where
  ticker : String
  fiscalPeriod : String
  metric : String
  category : String
  value : Option ℚ
deriving DecidableEq, Repr

/-- One raw statement matrix as returned by the provider after column
parsing: `cols` are the parsed column headers (`none` = unparseable, pandas
`NaT`), `rows` are the metric rows (`df.iterrows()` order), each a metric
name with its list of cell values positionally aligned with `cols`. -/
structure StatementMatrix where
  cols : List (Option Date)
  rows : List (String × List (Option ℚ))
deriving DecidableEq, Repr

/-- `df.dropna(axis=1, how='all')` in `melt_quarterly`: column `j` is kept
iff some metric row has a non-null value there. -/
def colKept (rows : List (String × List (Option ℚ))) (j : ℕ) : Bool :=
  rows.any (fun r => (r.2.getD j none).isSome)

/-- The records emitted for one metric row of `melt_quarterly`: one record
per kept, date-parseable column, with `Value` null when the cell is null. -/
def meltRow (ticker category : String) (cols : List (Option Date))
    (rows : List (String × List (Option ℚ))) (m : String)
    (vals : List (Option ℚ)) : List FundamentalRecord :=
  (List.range cols.length).filterMap (fun j =>
    if colKept rows j then
      (cols.getD j none).map (fun d =>
        { ticker := ticker, fiscalPeriod := quarterLabel d, metric := m,
          category := category, value := vals.getD j none })
    else none)

/-- `melt_quarterly(df, ticker, category)`: convert one quarterly statement
matrix (metrics × periods) to tall format.  Unparseable columns were mapped
to `none` (`NaT`) and are skipped; all-null columns are dropped; every
remaining cell (null or not) yields a record. -/
def meltQuarterly (ticker category : String) (mat : StatementMatrix) :
    List FundamentalRecord :=
  (mat.rows.map (fun r => meltRow ticker category mat.cols mat.rows r.1 r.2)).flatten

/-- The three quarterly statements of one company as supplied by the
provider (`yf.Ticker(...)`), or a raised provider error. -/
structure Statements where
  income : StatementMatrix
  balance : StatementMatrix
  cash : StatementMatrix
deriving DecidableEq

/-- `fetch_ticker_quarterly(ticker)`: melt the three statements and
concatenate; any provider exception is caught and yields an empty
DataFrame (the error is only logged). -/
def fetchTickerQuarterly (provider : String → Except String Statements)
    (t : String) : List FundamentalRecord :=
  match provider t with
  | Except.error _ => []
  | Except.ok s =>
      meltQuarterly t "IncomeStatement" s.income
        ++ meltQuarterly t "BalanceSheet" s.balance
        ++ meltQuarterly t "CashFlow" s.cash

/-- The `all_records` accumulator of `main()`: one melted frame per
ticker, with empty frames not appended. -/
def batchFrames (provider : String → Except String Statements)
    (tickers : List String) : List (List FundamentalRecord) :=
  (tickers.map (fetchTickerQuarterly provider)).filter (fun f => !f.isEmpty)

/-- `main()` of `build_fundamentals_tall.py`.  The universe provider
(`get_sp500_tickers`) may itself raise: that exception is uncaught, so the
process aborts with a non-zero exit (`Except.error`).  Otherwise each
ticker is fetched (per-ticker errors already swallowed) and the run
returns with exit code 0: `ok none` models the "No data fetched" early
return (no file written), `ok (some rs)` models a written parquet with
rows `rs`. -/
def mainRun (univ : Except String (List String))
    (provider : String → Except String Statements) :
    Except String (Option (List FundamentalRecord)) :=
  match univ with
  | Except.error e => Except.error e
  | Except.ok tickers =>
      if (batchFrames provider tickers).isEmpty then Except.ok none
      else Except.ok (some (batchFrames provider tickers).flatten)

/-! ## The pivot (`pivot_table(index="FiscalPeriod", columns="Metric",
values="Value", aggfunc="first").sort_index()`) -/

/-- The `Value` entries of all records for one `(fiscal_period, metric)`
group, in frame order (pandas `groupby` preserves intra-group order). -/
def valuesFor (rs : List FundamentalRecord) (p m : String) : List (Option ℚ) :=
  (rs.filter (fun r => r.fiscalPeriod == p && r.metric == m)).map (fun r => r.value)

/-- Pandas `GroupBy.first`: the first non-null element, none if all null. -/
def aggFirst : List (Option ℚ) → Option ℚ
  | [] => none
  | none :: rest => aggFirst rest
  | some v :: _ => some v

/-- The pivoted wide table's cell at `(fiscal_period, metric)`. -/
def cellFirst (rs : List FundamentalRecord) (p m : String) : Option ℚ :=
  aggFirst (valuesFor rs p m)

/-- `pandas.unique` order: distinct elements, first occurrence first. -/
def uniqFirst (l : List String) : List String :=
  l.foldl (fun acc x => if x ∈ acc then acc else acc ++ [x]) []

/-- The fiscal periods that survive `pivot_table(dropna=True)`: a period is
an index row iff at least one of its cells aggregates to a non-null value,
i.e. iff some record with that period has a non-null `Value`. -/
def survivingPeriods (rs : List FundamentalRecord) : List String :=
  uniqFirst ((rs.filter (fun r => r.value.isSome)).map (fun r => r.fiscalPeriod))

/-- Insert into a ≤-sorted list (ascending). -/
def insertSorted (x : String) : List String → List String
  | [] => [x]
  | y :: ys => if y < x then y :: insertSorted x ys else x :: y :: ys

/-- Ascending insertion sort on strings, modelling `sort_index()` on the
unique `FiscalPeriod` index. -/
def sortStr : List String → List String
  | [] => []
  | x :: xs => insertSorted x (sortStr xs)

/-- The row index of the pivoted wide table, ascending. -/
def pivotIndex (rs : List FundamentalRecord) : List String :=
  sortStr (survivingPeriods rs)

/-- Metric `m` is a column of the pivoted wide table iff some cell for `m`
is non-null, i.e. some record carries metric `m` with a non-null value
(`pivot_table(dropna=True)` drops all-null columns). -/
def hasMetricColumn (rs : List FundamentalRecord) (m : String) : Bool :=
  rs.any (fun r => r.metric == m && r.value.isSome)

/-- `df[df["Ticker"] == tkr]`. -/
def tickerRecs (db : List FundamentalRecord) (t : String) : List FundamentalRecord :=
  db.filter (fun r => r.ticker == t)

/-! ## `compute_health_scores` — per-ticker factor extraction -/

/-- The dict appended to `records` in the `compute_health_scores` loop
(`Insight` is a derived string, irrelevant to the claims, and omitted). -/
structure FactorRow where
  ticker : String
  growth : Option ℚ
  netMargin : Option ℚ
  fcfMargin : Option ℚ
  debtEquity : Option ℚ
deriving DecidableEq, Repr

/-- `wide.iloc[-1]`: the last fiscal period of the ascending pivot index. -/
def latestPeriod (rs : List FundamentalRecord) : String :=
  (pivotIndex rs).getD ((pivotIndex rs).length - 1) ""

/-- `wide.iloc[-5]`: the fiscal period four rows before the latest. -/
def prevPeriod4 (rs : List FundamentalRecord) : String :=
  (pivotIndex rs).getD ((pivotIndex rs).length - 5) ""

/-- `rev_latest = latest[revenue_col]` (`NaN` = `none`). -/
def revenueLatest (rs : List FundamentalRecord) : Option ℚ :=
  cellFirst rs (latestPeriod rs) "Total Revenue"

/-- `rev_prev = wide.iloc[-5][revenue_col]`. -/
def revenuePrev (rs : List FundamentalRecord) : Option ℚ :=
  cellFirst rs (prevPeriod4 rs) "Total Revenue"

/-- `growth = (rev_latest - rev_prev) / abs(rev_prev) if pd.notna(rev_latest)
and pd.notna(rev_prev) and rev_prev != 0 else np.nan`. -/
def growthOf (rs : List FundamentalRecord) : Option ℚ :=
  match revenueLatest rs, revenuePrev rs with
  | some a, some b => if b = 0 then none else some ((a - b) / |b|)
  | _, _ => none

/-- `latest.get(m, np.nan) / rev_latest if rev_latest else np.nan`: `NaN` is
truthy in Python, so the only falsy guard is a zero revenue; a `NaN`
numerator or denominator propagates to `NaN`. -/
def ratioToRevenue (rs : List FundamentalRecord) (m : String) : Option ℚ :=
  match cellFirst rs (latestPeriod rs) m, revenueLatest rs with
  | some x, some rv => if rv = 0 then none else some (x / rv)
  | _, _ => none

/-- `net_margin` of the latest period. -/
def netMarginOf (rs : List FundamentalRecord) : Option ℚ :=
  ratioToRevenue rs "Net Income"

/-- `fcf_margin` of the latest period. -/
def fcfMarginOf (rs : List FundamentalRecord) : Option ℚ :=
  ratioToRevenue rs "Free Cash Flow"

/-- `latest["Total Liabilities"] / latest["Shareholder Equity"] if
latest["Shareholder Equity"] else np.nan`, where a `KeyError` from a
missing column is caught and yields `NaN`: null when either cell is
missing, or when equity is zero. -/
def debtEquityOf (rs : List FundamentalRecord) : Option ℚ :=
  match cellFirst rs (latestPeriod rs) "Total Liabilities",
        cellFirst rs (latestPeriod rs) "Shareholder Equity" with
  | some tl, some se => if se = 0 then none else some (tl / se)
  | _, _ => none

/-- The body of the `for tkr in df["Ticker"].unique()` loop of
`compute_health_scores`: pivot the ticker's records, apply the two
exclusion gates (`wide.empty or wide.shape[0] < 5`, `"Total Revenue" not in
wide.columns`), then compute the four raw factors (a pivot with at least
one row always has at least one column, so `wide.empty` is subsumed by the
row-count gate). -/
def computeFactors (db : List FundamentalRecord) (t : String) : Option FactorRow :=
  if (pivotIndex (tickerRecs db t)).length < 5 then none
  else if !hasMetricColumn (tickerRecs db t) "Total Revenue" then none
  else some { ticker := t, growth := growthOf (tickerRecs db t),
              netMargin := netMarginOf (tickerRecs db t),
              fcfMargin := fcfMarginOf (tickerRecs db t),
              debtEquity := debtEquityOf (tickerRecs db t) }

/-! ## Cross-sectional ranking (`Series.rank(pct=True, na_option="bottom")`,
average method, ascending) -/

/-- Number of non-null entries of a factor column. -/
def someCount (xs : List (Option ℚ)) : ℕ := (xs.filterMap id).length

/-- Number of null entries of a factor column. -/
def nullCount (xs : List (Option ℚ)) : ℕ := xs.countP (fun x => x.isNone)

/-- Number of non-null entries strictly below `v`. -/
def cntLt (xs : List (Option ℚ)) (v : ℚ) : ℕ :=
  (xs.filterMap id).countP (fun w => decide (w < v))

/-- Number of non-null entries equal to `v`. -/
def cntEq (xs : List (Option ℚ)) (v : ℚ) : ℕ :=
  (xs.filterMap id).countP (fun w => decide (w = v))

/-- `Series.rank(pct=True, na_option="bottom")` of one entry within column
`xs`: ranks use the average method over ascending order; null entries are
placed after every number (pandas `na_option="bottom"` assigns them the
highest ranks); the percentile divisor is the full column length. -/
def rankBottomPct (xs : List (Option ℚ)) : Option ℚ → ℚ
  | some v =>
      (((cntLt xs v : ℚ) + ((cntEq xs v : ℚ) + 1) / 2)) / (xs.length : ℚ)
  | none =>
      (((someCount xs : ℚ) + ((nullCount xs : ℚ) + 1) / 2)) / (xs.length : ℚ)

/-- `score_df["Growth_score"]` for one row. -/
def growthScore (rows : List FactorRow) (r : FactorRow) : ℚ :=
  rankBottomPct (rows.map (fun s => s.growth)) r.growth

/-- `score_df["NetMargin_score"]` for one row. -/
def netMarginScore (rows : List FactorRow) (r : FactorRow) : ℚ :=
  rankBottomPct (rows.map (fun s => s.netMargin)) r.netMargin

/-- `score_df["FCFMargin_score"]` for one row. -/
def fcfMarginScore (rows : List FactorRow) (r : FactorRow) : ℚ :=
  rankBottomPct (rows.map (fun s => s.fcfMargin)) r.fcfMargin

/-- `score_df["DebtEquity_score"] = 1 - score_df["DebtEquity"].rank(pct=True,
na_option="bottom")` for one row. -/
def debtEquityScore (rows : List FactorRow) (r : FactorRow) : ℚ :=
  1 - rankBottomPct (rows.map (fun s => s.debtEquity)) r.debtEquity

/-- Pandas `mean(skipna=True)` over a list of possibly-null values. -/
def skipMean (xs : List (Option ℚ)) : Option ℚ :=
  let vs := xs.filterMap id
  if vs.length = 0 then none else some (vs.sum / (vs.length : ℚ))

/-- `score_df["HealthScore"]`: the `skipna` row mean over the four
`*_score` columns (each of which is a total float column: `na_option=
"bottom"` ranks never produce `NaN`). -/
def healthScore (rows : List FactorRow) (r : FactorRow) : Option ℚ :=
  skipMean [some (growthScore rows r), some (netMarginScore rows r),
            some (fcfMarginScore rows r), some (debtEquityScore rows r)]

/-- The `score_df` rows before ranking: one `FactorRow` per surviving
ticker, in `df["Ticker"].unique()` order. -/
def scoreRows (db : List FundamentalRecord) : List FactorRow :=
  (uniqFirst (db.map (fun r => r.ticker))).filterMap (computeFactors db)

/-- The final result set of `compute_health_scores` projected to
`(Ticker, HealthScore)`, after `dropna(subset=["HealthScore"])`. -/
def finalScores (db : List FundamentalRecord) : List (String × ℚ) :=
  (scoreRows db).filterMap (fun r =>
    (healthScore (scoreRows db) r).map (fun h => (r.ticker, h)))

/-! ## The custom scoring tab -/

/-- `df[df["Metric"].isin(selected_metrics)]`. -/
def filteredDb (db : List FundamentalRecord) (sel : List String) :
    List FundamentalRecord :=
  db.filter (fun r => sel.contains r.metric)

/-- The `Value` column of one metric's group across all tickers and all
periods (`groupby("Metric")["Value"]`). -/
def metricColumn (fdb : List FundamentalRecord) (m : String) : List (Option ℚ) :=
  (fdb.filter (fun r => r.metric == m)).map (fun r => r.value)

/-- `rank(pct=True)` with default `na_option="keep"` inside one metric
group: a null value keeps a null rank; the percentile divisor is the count
of non-null entries of the group. -/
def rankKeepPct (xs : List (Option ℚ)) (v : ℚ) : ℚ :=
  (((cntLt xs v : ℚ) + ((cntEq xs v : ℚ) + 1) / 2)) / (someCount xs : ℚ)

/-- The `*_score` value of one row of `normalized_df`: each of the
identical score columns holds, for every row, the within-metric percentile
rank of that row's value (null for null values). -/
def rowScore (fdb : List FundamentalRecord) (r : FundamentalRecord) : Option ℚ :=
  r.value.map (fun v => rankKeepPct (metricColumn fdb r.metric) v)

/-- The custom tab's composite for one ticker:
`normalized_df.groupby("Ticker")[score_cols].mean().mean(axis=1)` — the
per-column `skipna` mean of the ticker's row scores (one identical column
per selected metric), then the `skipna` mean across those columns. -/
def customHealthScore (db : List FundamentalRecord) (sel : List String)
    (t : String) : Option ℚ :=
  let fdb := filteredDb db sel
  let trs := fdb.filter (fun r => r.ticker == t)
  skipMean (sel.map (fun _ => skipMean (trs.map (rowScore fdb))))

/-! ## Spec-side comparator for the custom engine (refinement claim) -/

/-- Modelled from the spec: the spec's "latest available value" of a metric
for a ticker — the value of the record with the greatest fiscal period
among the ticker's non-null records for that metric (the source has no such
computation; this definition follows the claim's words for comparison). -/
def latestAvailable (db : List FundamentalRecord) (t m : String) : Option ℚ :=
  let rs := db.filter (fun r => r.ticker == t && r.metric == m && r.value.isSome)
  match (sortStr (rs.map (fun r => r.fiscalPeriod))).getLast? with
  | none => none
  | some p => aggFirst ((rs.filter (fun r => r.fiscalPeriod == p)).map (fun r => r.value))

/-- Modelled from the spec: the claimed custom composite — for each
selected metric the percentile rank of the ticker's latest available value
among all tickers' latest available values, averaged null-skipping. -/
def specCustomScore (db : List FundamentalRecord) (sel : List String)
    (t : String) : Option ℚ :=
  let tickers := uniqFirst (db.map (fun r => r.ticker))
  skipMean (sel.map (fun m =>
    (latestAvailable db t m).map (fun v =>
      rankKeepPct (tickers.map (fun u => latestAvailable db u m)) v)))

/-! ## Concrete stores and inputs used by witnesses and counterexamples -/

/-- A store with one ticker `AAA` holding five fiscal periods of
`Total Revenue`: 100, 100, 100, 100, 120. -/
def db5 : List FundamentalRecord :=
  [⟨"AAA", "2022Q1", "Total Revenue", "IncomeStatement", some 100⟩,
   ⟨"AAA", "2022Q2", "Total Revenue", "IncomeStatement", some 100⟩,
   ⟨"AAA", "2022Q3", "Total Revenue", "IncomeStatement", some 100⟩,
   ⟨"AAA", "2022Q4", "Total Revenue", "IncomeStatement", some 100⟩,
   ⟨"AAA", "2023Q1", "Total Revenue", "IncomeStatement", some 120⟩]

/-- `db5` plus a ticker `BBB` with only four fiscal periods of history. -/
def db45 : List FundamentalRecord :=
  db5 ++
  [⟨"BBB", "2022Q2", "Total Revenue", "IncomeStatement", some 50⟩,
   ⟨"BBB", "2022Q3", "Total Revenue", "IncomeStatement", some 50⟩,
   ⟨"BBB", "2022Q4", "Total Revenue", "IncomeStatement", some 50⟩,
   ⟨"BBB", "2023Q1", "Total Revenue", "IncomeStatement", some 50⟩]

/-- `db5` plus a ticker `BBB` with five periods whose year-ago revenue is 0,
so `BBB` survives both gates but its growth factor is null. -/
def db2t : List FundamentalRecord :=
  db5 ++
  [⟨"BBB", "2022Q1", "Total Revenue", "IncomeStatement", some 0⟩,
   ⟨"BBB", "2022Q2", "Total Revenue", "IncomeStatement", some 0⟩,
   ⟨"BBB", "2022Q3", "Total Revenue", "IncomeStatement", some 0⟩,
   ⟨"BBB", "2022Q4", "Total Revenue", "IncomeStatement", some 0⟩,
   ⟨"BBB", "2023Q1", "Total Revenue", "IncomeStatement", some 50⟩]

/-- The factor row `compute_health_scores` derives for `BBB` in `db2t`. -/
def rowBBB : FactorRow := ⟨"BBB", none, none, none, none⟩

/-- Two records for the same `(ticker, fiscal_period, metric)` key whose
first-encountered value is null and whose second is 5 (as happens when a
metric appears in two statement categories). -/
def dupRecs : List FundamentalRecord :=
  [⟨"T", "2023Q1", "Net Income", "IncomeStatement", none⟩,
   ⟨"T", "2023Q1", "Net Income", "CashFlow", some 5⟩]

/-- A store for the custom tab: ticker `A` has metric `M` in two periods
(0 then 10), ticker `B` has it in one period (5). -/
def exDbCustom : List FundamentalRecord :=
  [⟨"A", "2023Q1", "M", "IncomeStatement", some 0⟩,
   ⟨"A", "2023Q2", "M", "IncomeStatement", some 10⟩,
   ⟨"B", "2023Q1", "M", "IncomeStatement", some 5⟩]

/-- A statement matrix with two distinct parseable period columns that fall
in the same calendar quarter (both map to fiscal period `2023Q1`). -/
def exMatSameQ : StatementMatrix :=
  { cols := [some ⟨2023, 1, 15⟩, some ⟨2023, 2, 15⟩],
    rows := [("M", [some 1, some 2])] }

/-- A well-formed statement matrix: two columns in distinct quarters, one
metric row, one null cell (column 2 is kept because of the second row). -/
def exMatGood : StatementMatrix :=
  { cols := [some ⟨2023, 1, 31⟩, some ⟨2023, 7, 31⟩],
    rows := [("Revenue", [some 7, some 9]), ("Costs", [none, some 4])] }

/-- The parseable column dates of `exMatGood`. -/
def colsGood : List Date := [⟨2023, 1, 31⟩, ⟨2023, 7, 31⟩]

/-- A provider statements value for witness runs: a single income-statement
matrix with one revenue cell. -/
def goodStatements : Statements :=
  { income := { cols := [some ⟨2023, 3, 31⟩], rows := [("Total Revenue", [some 5])] },
    balance := { cols := [], rows := [] },
    cash := { cols := [], rows := [] } }

/-- A provider that raises for ticker `BAD` and answers `goodStatements`
otherwise. -/
def exProvider : String → Except String Statements :=
  fun s => if s == "BAD" then Except.error "boom" else Except.ok goodStatements

/-- Two score rows with equal (null) factors except `debtEquity` 1 vs 2. -/
def exRowsDE : List FactorRow :=
  [⟨"A", none, none, none, some 1⟩, ⟨"B", none, none, none, some 2⟩]

/-! ## Helper lemmas about the first-wins aggregation -/

theorem aggFirst_eq_none_iff (l : List (Option ℚ)) :
    aggFirst l = none ↔ ∀ x ∈ l, x = none := by
  induction l with
  | nil => simp [aggFirst]
  | cons a t ih =>
    cases a with
    | none => simpa [aggFirst] using ih
    | some v => simp [aggFirst]

theorem aggFirst_eq_some_iff (l : List (Option ℚ)) (v : ℚ) :
    aggFirst l = some v ↔
      ∃ l1 l2, l = l1 ++ some v :: l2 ∧ ∀ x ∈ l1, x = none := by
  induction l with
  | nil =>
    simp only [aggFirst]
    constructor
    · intro h; cases h
    · rintro ⟨l1, l2, h, -⟩
      exact absurd h (by simp)
  | cons a t ih =>
    cases a with
    | none =>
      simp only [aggFirst]
      rw [ih]
      constructor
      · rintro ⟨l1, l2, rfl, h1⟩
        refine ⟨none :: l1, l2, rfl, ?_⟩
        intro x hx
        rcases List.mem_cons.mp hx with h | h
        · exact h
        · exact h1 x h
      · rintro ⟨l1, l2, heq, h1⟩
        cases l1 with
        | nil => simp at heq
        | cons b l1 =>
          rw [List.cons_append] at heq
          refine ⟨l1, l2, (List.cons.injEq _ _ _ _ ▸ heq).2, ?_⟩
          intro x hx
          exact h1 x (List.mem_cons_of_mem b hx)
    | some w =>
      simp only [aggFirst]
      constructor
      · intro h
        refine ⟨[], t, ?_, by simp⟩
        simpa using h
      · rintro ⟨l1, l2, heq, h1⟩
        cases l1 with
        | nil =>
          simp only [List.nil_append] at heq
          exact (List.cons.injEq _ _ _ _ ▸ heq).1
        | cons b l1 =>
          rw [List.cons_append] at heq
          have hb : b = none := h1 b (List.mem_cons_self b l1)
          have : some w = b := (List.cons.injEq _ _ _ _ ▸ heq).1
          rw [hb] at this
          cases this

/-- C3, corrected.  For every `(ticker-scoped record set, fiscal_period,
metric)` key the pivot retains at most one authoritative value, namely its
single cell; but duplicate reconciliation is first-NON-NULL-wins, not
first-encountered-wins: the cell is `some v` exactly when the group's value
list in encounter order is a (possibly empty) run of nulls followed by `v`,
and null exactly when every duplicate is null — pandas `aggfunc="first"`
skips nulls rather than keeping a leading null. -/
theorem c3_first_nonnull_wins (rs : List FundamentalRecord) (p m : String) :
    (cellFirst rs p m = none ↔ ∀ x ∈ valuesFor rs p m, x = none) ∧
    (∀ v : ℚ, cellFirst rs p m = some v ↔
      ∃ l1 l2, valuesFor rs p m = l1 ++ some v :: l2 ∧ ∀ x ∈ l1, x = none) := by
  constructor
  · exact aggFirst_eq_none_iff (valuesFor rs p m)
  · intro v
    exact aggFirst_eq_some_iff (valuesFor rs p m) v

/-- C3, counterexample to the claim as stated: `dupRecs` presents two
duplicate values for the key `(T, 2023Q1, Net Income)`, first `null`, then
`5`; the pivot cell keeps `5`, not the first-encountered value `null`. -/
theorem c3_counterexample :
    (valuesFor dupRecs "2023Q1" "Net Income").head? = some none ∧
    cellFirst dupRecs "2023Q1" "Net Income" = some 5 ∧
    some (5 : ℚ) ≠ none := by
  refine ⟨by decide, by decide, by decide⟩

/-! ## Membership in the melted output -/

theorem mem_meltRow {tk cat : String} {cols : List (Option Date)}
    {rows : List (String × List (Option ℚ))} {m : String}
    {vals : List (Option ℚ)} {rec : FundamentalRecord} :
    rec ∈ meltRow tk cat cols rows m vals ↔
      ∃ j, j < cols.length ∧ colKept rows j = true ∧
        ∃ d, cols.getD j none = some d ∧
          rec = ⟨tk, quarterLabel d, m, cat, vals.getD j none⟩ := by
  simp only [meltRow, List.mem_filterMap, List.mem_range]
  constructor
  · rintro ⟨j, hj, h⟩
    by_cases hk : colKept rows j = true
    · rw [if_pos hk] at h
      rcases Option.map_eq_some'.mp h with ⟨d, hd, hrec⟩
      exact ⟨j, hj, hk, d, hd, hrec.symm⟩
    · rw [if_neg hk] at h
      cases h
  · rintro ⟨j, hj, hk, d, hd, hrec⟩
    refine ⟨j, hj, ?_⟩
    rw [if_pos hk, hd]
    simp [hrec]

theorem mem_meltQuarterly {tk cat : String} {mat : StatementMatrix}
    {rec : FundamentalRecord} :
    rec ∈ meltQuarterly tk cat mat ↔
      ∃ m vals, (m, vals) ∈ mat.rows ∧
        rec ∈ meltRow tk cat mat.cols mat.rows m vals := by
  simp only [meltQuarterly, List.mem_flatten, List.mem_map]
  constructor
  · rintro ⟨l, ⟨r, hr, rfl⟩, hrec⟩
    exact ⟨r.1, r.2, hr, hrec⟩
  · rintro ⟨m, vals, hmv, hrec⟩
    exact ⟨_, ⟨(m, vals), hmv, rfl⟩, hrec⟩

/-- C10, confirmed.  For every metric row and every retained
(date-parseable, not entirely-null) period column of a statement matrix,
`melt_quarterly` emits a record even when the cell's numeric value is
missing: the record appears with `Value = null` rather than being omitted,
so the persisted long-format dataset may contain null-valued rows. -/
theorem c10_null_value_emitted (tk cat : String) (mat : StatementMatrix)
    (m : String) (vals : List (Option ℚ)) (j : ℕ) (d : Date)
    (hrow : (m, vals) ∈ mat.rows) (hj : j < mat.cols.length)
    (hd : mat.cols.getD j none = some d) (hkept : colKept mat.rows j = true)
    (hnull : vals.getD j none = none) :
    (⟨tk, quarterLabel d, m, cat, none⟩ : FundamentalRecord) ∈
      meltQuarterly tk cat mat := by
  rw [mem_meltQuarterly]
  refine ⟨m, vals, hrow, ?_⟩
  rw [mem_meltRow]
  exact ⟨j, hj, hkept, d, hd, by rw [hnull]⟩

/-- C10, witness: in `exMatGood` the `Costs` row has a null cell in the
retained column `2023-01-31`, and the corresponding null-valued record is
emitted. -/
theorem c10_null_value_emitted_witness :
    (⟨"T", quarterLabel ⟨2023, 1, 31⟩, "Costs", "IncomeStatement", none⟩ :
        FundamentalRecord) ∈ meltQuarterly "T" "IncomeStatement" exMatGood :=
  c10_null_value_emitted "T" "IncomeStatement" exMatGood "Costs"
    [none, some 4] 0 ⟨2023, 1, 31⟩ (by decide) (by decide) (by decide)
    (by decide) (by decide)


/-! ## Batch failure policy -/

theorem batchFrames_erase_failed (provider : String → Except String Statements)
    (t : String) (hfetch : fetchTickerQuarterly provider t = [])
    (ts : List String) :
    batchFrames provider (ts.filter (fun u => !(u == t))) =
      batchFrames provider ts := by
  induction ts with
  | nil => rfl
  | cons u ts ih =>
    by_cases hu : u = t
    · subst hu
      simp [batchFrames, List.filter_cons, hfetch] at ih ⊢
      exact ih
    · have hne : (u == t) = false := beq_eq_false_iff_ne.mpr hu
      simp [batchFrames, List.filter_cons, hne] at ih ⊢
      by_cases hemp : (fetchTickerQuarterly provider u).isEmpty <;>
        simp [hemp, ih]

/-- C9, confirmed.  A provider error for one company is caught inside
`fetch_ticker_quarterly`: that company contributes no records, the batch
result equals the batch over the remaining companies, the run returns with
exit code 0 (`Except.ok`), and whenever any surviving company contributes
records the aggregate output is written (`ok (some rows)`); a non-zero
exit (`Except.error`) can only arise from a failure of the universe
provider itself. -/
theorem c9_error_containment (provider : String → Except String Statements)
    (ts : List String) (t : String) (e : String)
    (herr : provider t = Except.error e) :
    fetchTickerQuarterly provider t = [] ∧
    mainRun (Except.ok ts) provider =
      mainRun (Except.ok (ts.filter (fun u => !(u == t)))) provider ∧
    (∃ out, mainRun (Except.ok ts) provider = Except.ok out) ∧
    (∀ u, u ∈ ts → fetchTickerQuarterly provider u ≠ [] →
      ∃ rows, mainRun (Except.ok ts) provider = Except.ok (some rows)) ∧
    (∀ univ e2, mainRun univ provider = Except.error e2 →
      univ = Except.error e2) := by
  have hfetch : fetchTickerQuarterly provider t = [] := by
    unfold fetchTickerQuarterly
    rw [herr]
  refine ⟨hfetch, ?_, ?_, ?_, ?_⟩
  · simp only [mainRun]
    rw [batchFrames_erase_failed provider t hfetch ts]
  · simp only [mainRun]
    by_cases hemp : (batchFrames provider ts).isEmpty
    · exact ⟨none, by rw [if_pos hemp]⟩
    · exact ⟨some (batchFrames provider ts).flatten, by rw [if_neg hemp]⟩
  · intro u hu hne
    have hmem : fetchTickerQuarterly provider u ∈ batchFrames provider ts := by
      rw [batchFrames, List.mem_filter]
      refine ⟨List.mem_map_of_mem _ hu, ?_⟩
      simp [List.isEmpty_iff, hne]
    have hemp : ¬ (batchFrames provider ts).isEmpty = true := by
      rw [List.isEmpty_iff]
      intro h
      rw [h] at hmem
      cases hmem
    refine ⟨(batchFrames provider ts).flatten, ?_⟩
    simp only [mainRun]
    rw [if_neg hemp]
  · intro univ e2 hrun
    cases univ with
    | error e3 =>
      simp only [mainRun] at hrun
      cases hrun
      rfl
    | ok ts2 =>
      simp only [mainRun] at hrun
      by_cases hemp : (batchFrames provider ts2).isEmpty
      · rw [if_pos hemp] at hrun
        cases hrun
      · rw [if_neg hemp] at hrun
        cases hrun

/-- C9, witness: with `exProvider` raising for `BAD`, the batch over
`[GOOD, BAD]` drops `BAD`, equals the batch over `[GOOD]` alone, and the
failed fetch contributes no records. -/
theorem c9_error_containment_witness :
    fetchTickerQuarterly exProvider "BAD" = [] ∧
    mainRun (Except.ok ["GOOD", "BAD"]) exProvider =
      mainRun (Except.ok ["GOOD"]) exProvider := by
  have h := c9_error_containment exProvider ["GOOD", "BAD"] "BAD" "boom" rfl
  refine ⟨h.1, ?_⟩
  have h2 := h.2.1
  rwa [show (["GOOD", "BAD"].filter (fun u => !(u == "BAD"))) = ["GOOD"] by decide]
    at h2

/-! ## Ranking lemmas -/

theorem countP_lt_add_countP_eq_le_length (l : List ℚ) (x : ℚ) :
    l.countP (fun w => decide (w < x)) + l.countP (fun w => decide (w = x)) ≤
      l.length := by
  induction l with
  | nil => simp
  | cons a t ih =>
    simp only [List.countP_cons, List.length_cons]
    by_cases h1 : a < x <;> by_cases h2 : a = x <;> simp [h1, h2] <;> omega

theorem countP_lt_add_countP_eq_le_countP_lt (l : List ℚ) {x y : ℚ}
    (hxy : x < y) :
    l.countP (fun w => decide (w < x)) + l.countP (fun w => decide (w = x)) ≤
      l.countP (fun w => decide (w < y)) := by
  induction l with
  | nil => simp
  | cons a t ih =>
    simp only [List.countP_cons]
    by_cases h1 : a < x
    · have h2 : ¬ a = x := fun h => absurd (h ▸ h1) (lt_irrefl x)
      have h3 : a < y := h1.trans hxy
      simp [h1, h2, h3]
      omega
    · by_cases h2 : a = x
      · simp [h1, h2, hxy]
        omega
      · by_cases h3 : a < y <;> simp [h1, h2, h3] <;> omega

theorem rankBottomPct_le_rank_none (xs : List (Option ℚ)) (x : Option ℚ) :
    rankBottomPct xs x ≤ rankBottomPct xs none := by
  cases x with
  | none => exact le_refl _
  | some v =>
    show (((cntLt xs v : ℚ) + ((cntEq xs v : ℚ) + 1) / 2)) / (xs.length : ℚ) ≤
      (((someCount xs : ℚ) + ((nullCount xs : ℚ) + 1) / 2)) / (xs.length : ℚ)
    rcases Nat.eq_zero_or_pos xs.length with h0 | hpos
    · rw [h0]
      norm_num
    · have hc : (0 : ℚ) < (xs.length : ℚ) := by exact_mod_cast hpos
      rw [div_le_div_iff_of_pos_right hc]
      have hcount : (cntLt xs v : ℚ) + (cntEq xs v : ℚ) ≤ (someCount xs : ℚ) := by
        have := countP_lt_add_countP_eq_le_length (xs.filterMap id) v
        exact_mod_cast this
      have h2 : (0 : ℚ) ≤ (cntEq xs v : ℚ) := Nat.cast_nonneg _
      have h3 : (0 : ℚ) ≤ (nullCount xs : ℚ) := Nat.cast_nonneg _
      linarith

theorem rankBottomPct_mono (xs : List (Option ℚ)) {x y : ℚ} (hxy : x < y) :
    rankBottomPct xs (some x) ≤ rankBottomPct xs (some y) := by
  show (((cntLt xs x : ℚ) + ((cntEq xs x : ℚ) + 1) / 2)) / (xs.length : ℚ) ≤
    (((cntLt xs y : ℚ) + ((cntEq xs y : ℚ) + 1) / 2)) / (xs.length : ℚ)
  rcases Nat.eq_zero_or_pos xs.length with h0 | hpos
  · rw [h0]
    norm_num
  · have hc : (0 : ℚ) < (xs.length : ℚ) := by exact_mod_cast hpos
    rw [div_le_div_iff_of_pos_right hc]
    have hcount : (cntLt xs x : ℚ) + (cntEq xs x : ℚ) ≤ (cntLt xs y : ℚ) := by
      have := countP_lt_add_countP_eq_le_countP_lt (xs.filterMap id) hxy
      exact_mod_cast this
    have h2 : (0 : ℚ) ≤ (cntEq xs x : ℚ) := Nat.cast_nonneg _
    have h3 : (0 : ℚ) ≤ (cntEq xs y : ℚ) := Nat.cast_nonneg _
    linarith

/-- C1, corrected.  In the ranking step a null factor value is not
excluded, but it is also not ranked 0 (worst): `na_option="bottom"` places
nulls at the top end of the ascending ranking, so a null receives a rank at
least as high as every entry of its column.  For the three factors whose
percentile is used as-is (Growth, NetMargin, FCFMargin) a null therefore
receives the BEST score of the column; only for DebtEquity, whose score is
`1 - rank`, does a null receive the worst score. -/
theorem c1_null_ranked_top (rows : List FactorRow) (r s : FactorRow) :
    (r.growth = none → growthScore rows s ≤ growthScore rows r) ∧
    (r.netMargin = none → netMarginScore rows s ≤ netMarginScore rows r) ∧
    (r.fcfMargin = none → fcfMarginScore rows s ≤ fcfMarginScore rows r) ∧
    (r.debtEquity = none → debtEquityScore rows r ≤ debtEquityScore rows s) := by
  refine ⟨?_, ?_, ?_, ?_⟩ <;> intro hr
  · unfold growthScore
    rw [hr]
    exact rankBottomPct_le_rank_none _ _
  · unfold netMarginScore
    rw [hr]
    exact rankBottomPct_le_rank_none _ _
  · unfold fcfMarginScore
    rw [hr]
    exact rankBottomPct_le_rank_none _ _
  · unfold debtEquityScore
    rw [hr]
    have := rankBottomPct_le_rank_none (rows.map (fun u => u.debtEquity))
      s.debtEquity
    linarith

/-- C1, counterexample to the claim as stated: in `db2t` the surviving
ticker `BBB` has a null Growth factor, yet its Growth percentile rank in
`compute_health_scores` is 1 (the best of the universe), not 0 (the
worst). -/
theorem c1_counterexample :
    computeFactors db2t "BBB" = some rowBBB ∧
    rowBBB.growth = none ∧
    growthScore (scoreRows db2t) rowBBB = 1 ∧
    (1 : ℚ) ≠ 0 := by
  refine ⟨by with_unfolding_all decide, by decide,
    by with_unfolding_all decide, by norm_num⟩

/-- C1, witness for the corrected claim at a concrete input: `AAA` has a
non-null growth of 1/5 but `BBB`, with null growth, scores at least as
high on the Growth factor. -/
theorem c1_null_ranked_top_witness :
    growthScore (scoreRows db2t) ⟨"AAA", some (1/5), none, none, none⟩ ≤
      growthScore (scoreRows db2t) rowBBB :=
  (c1_null_ranked_top (scoreRows db2t) rowBBB
    ⟨"AAA", some (1/5), none, none, none⟩).1 (by decide)

/-- C6, confirmed.  `DebtEquity_score = 1 - percentile_rank(DebtEquity)`,
and for two tickers of the same scoring run with identical other factors
and `debt_equity(A) < debt_equity(B)`, A scores at least as high as B. -/
theorem c6_debt_equity_inversion (rows : List FactorRow) :
    (∀ r, debtEquityScore rows r =
      1 - rankBottomPct (rows.map (fun s => s.debtEquity)) r.debtEquity) ∧
    (∀ a b x y, a ∈ rows → b ∈ rows → a.growth = b.growth →
      a.netMargin = b.netMargin → a.fcfMargin = b.fcfMargin →
      a.debtEquity = some x → b.debtEquity = some y → x < y →
      debtEquityScore rows b ≤ debtEquityScore rows a) := by
  constructor
  · intro r
    rfl
  · intro a b x y ha hb hg hn hf hax hby hxy
    unfold debtEquityScore
    rw [hax, hby]
    have := rankBottomPct_mono (rows.map (fun s => s.debtEquity)) hxy
    linarith

/-- C6, witness: in `exRowsDE` the less-leveraged `A` (D/E 1) scores at
least as high as `B` (D/E 2). -/
theorem c6_debt_equity_inversion_witness :
    debtEquityScore exRowsDE ⟨"B", none, none, none, some 2⟩ ≤
      debtEquityScore exRowsDE ⟨"A", none, none, none, some 1⟩ :=
  (c6_debt_equity_inversion exRowsDE).2
    ⟨"A", none, none, none, some 1⟩ ⟨"B", none, none, none, some 2⟩ 1 2
    (by decide) (by decide) rfl rfl rfl (by decide) (by decide) (by norm_num)

/-! ## Mean lemmas -/

theorem skipMean_replicate (n : ℕ) (hn : n ≠ 0) (c : ℚ) :
    skipMean (List.replicate n (some c)) = some c := by
  have h1 : (List.replicate n (some c)).filterMap id = List.replicate n c := by
    induction n with
    | zero => rfl
    | succ k ih => simp [List.replicate_succ, ih]
  simp only [skipMean, h1, List.length_replicate, List.sum_replicate,
    nsmul_eq_mul]
  rw [if_neg hn]
  congr 1
  exact mul_div_cancel_left₀ c (by exact_mod_cast hn)

theorem skipMean_map_const {α : Type} (l : List α) (x : Option ℚ)
    (hl : l ≠ []) : skipMean (l.map (fun _ => x)) = x := by
  have hlen : l.length ≠ 0 := fun h => hl (List.length_eq_zero.mp h)
  have hmap : l.map (fun _ => x) = List.replicate l.length x := by
    induction l with
    | nil => rfl
    | cons a t ih =>
      simp only [List.map_cons, List.length_cons, List.replicate_succ]
      by_cases ht : t = []
      · subst ht
        rfl
      · rw [ih ht (fun h => ht (List.length_eq_zero.mp h))]
  cases x with
  | none =>
    rw [hmap]
    have h1 : (List.replicate l.length (none : Option ℚ)).filterMap id = [] := by
      induction l.length with
      | zero => rfl
      | succ k ih => simp [List.replicate_succ, ih]
    simp [skipMean, h1]
  | some c =>
    rw [hmap]
    exact skipMean_replicate l.length hlen c

theorem skipMean_four (a b c d : ℚ) :
    skipMean [some a, some b, some c, some d] = some ((a + b + c + d) / 4) := by
  have h1 : ([some a, some b, some c, some d] :
      List (Option ℚ)).filterMap id = [a, b, c, d] := rfl
  simp only [skipMean, h1, List.length_cons, List.length_nil, List.sum_cons,
    List.sum_nil]
  rw [if_neg (by norm_num)]
  norm_num [add_assoc]

/-- C2, corrected.  In the custom scoring engine the per-ticker composite is
NOT the percentile rank of the ticker's latest available value per metric:
it is the null-skipping mean, over ALL of the ticker's rows for the
selected metrics (every historical period, nulls dropped), of each row's
within-metric percentile rank among all tickers' values across all
historical periods — `groupby("Metric")["Value"].rank(pct=True)` ranks the
whole value column, not latest values. -/
theorem c2_rank_over_all_periods (db : List FundamentalRecord)
    (sel : List String) (t : String) (hsel : sel ≠ []) :
    customHealthScore db sel t =
      skipMean (((filteredDb db sel).filter (fun r => r.ticker == t)).map
        (rowScore (filteredDb db sel))) := by
  unfold customHealthScore
  exact skipMean_map_const sel _ hsel

/-- C2, counterexample to the claim as stated: in `exDbCustom`, ticker `A`
has latest value 10 for metric `M`, the best latest value of the universe
(claimed score 1, as the spec-modelled `specCustomScore` computes), but the
code scores `A` at 2/3 because the rank of its older value 0 is averaged
in. -/
theorem c2_counterexample :
    customHealthScore exDbCustom ["M"] "A" = some (2/3) ∧
    specCustomScore exDbCustom ["M"] "A" = some 1 ∧
    some ((2 : ℚ)/3) ≠ some 1 := by
  refine ⟨by with_unfolding_all decide, by with_unfolding_all decide, ?_⟩
  intro h
  rw [Option.some_inj] at h
  norm_num at h

/-- C2, witness for the corrected claim at a concrete input. -/
theorem c2_rank_over_all_periods_witness :
    customHealthScore exDbCustom ["M"] "A" =
      skipMean (((filteredDb exDbCustom ["M"]).filter
        (fun r => r.ticker == "A")).map (rowScore (filteredDb exDbCustom ["M"]))) :=
  c2_rank_over_all_periods exDbCustom ["M"] "A" (by decide)

/-- C8, confirmed.  Every `(ticker, HealthScore)` pair of the final result
set comes from a surviving factor row whose composite is non-null and
equals the null-skipping mean of the four factor scores (which, since
`na_option="bottom"` ranks are total, is their plain mean over 4); in
particular a ticker whose composite were null could not appear. -/
theorem c8_composite_mean (db : List FundamentalRecord) (s : String) (h : ℚ)
    (hmem : (s, h) ∈ finalScores db) :
    ∃ r, r ∈ scoreRows db ∧ r.ticker = s ∧
      healthScore (scoreRows db) r = some h ∧
      h = (growthScore (scoreRows db) r + netMarginScore (scoreRows db) r +
        fcfMarginScore (scoreRows db) r + debtEquityScore (scoreRows db) r) / 4 := by
  unfold finalScores at hmem
  rcases List.mem_filterMap.mp hmem with ⟨r, hr, hopt⟩
  rcases Option.map_eq_some'.mp hopt with ⟨h0, hh0, heq⟩
  injection heq with h1 h2
  have h4 : healthScore (scoreRows db) r =
      some ((growthScore (scoreRows db) r + netMarginScore (scoreRows db) r +
        fcfMarginScore (scoreRows db) r + debtEquityScore (scoreRows db) r) / 4) :=
    skipMean_four _ _ _ _
  rw [h4] at hh0
  rw [Option.some_inj] at hh0
  exact ⟨r, hr, h1, by rw [h4, hh0, h2], by rw [← h2, ← hh0]⟩

/-- C8, witness: in `db5` the single surviving ticker `AAA` appears with
composite 3/4, the mean of its four factor scores. -/
theorem c8_composite_mean_witness :
    ("AAA", (3 : ℚ)/4) ∈ finalScores db5 ∧
    ∃ r, r ∈ scoreRows db5 ∧ r.ticker = "AAA" ∧
      healthScore (scoreRows db5) r = some ((3 : ℚ)/4) ∧
      (3 : ℚ)/4 = (growthScore (scoreRows db5) r +
        netMarginScore (scoreRows db5) r + fcfMarginScore (scoreRows db5) r +
        debtEquityScore (scoreRows db5) r) / 4 := by
  have hm : ("AAA", (3 : ℚ)/4) ∈ finalScores db5 := by with_unfolding_all decide
  exact ⟨hm, c8_composite_mean db5 "AAA" (3/4) hm⟩

/-! ## Exclusion gates and the growth factor -/

theorem computeFactors_ticker_eq (db : List FundamentalRecord) (u : String)
    (r : FactorRow) (h : computeFactors db u = some r) : r.ticker = u := by
  unfold computeFactors at h
  by_cases h5 : (pivotIndex (tickerRecs db u)).length < 5
  · rw [if_pos h5] at h
    cases h
  · rw [if_neg h5] at h
    by_cases hrev : !hasMetricColumn (tickerRecs db u) "Total Revenue"
    · rw [if_pos hrev] at h
      cases h
    · rw [if_neg hrev] at h
      injection h with h2
      rw [← h2]

theorem computeFactors_gate_none (db : List FundamentalRecord) (t : String)
    (hgate : (pivotIndex (tickerRecs db t)).length < 5 ∨
      hasMetricColumn (tickerRecs db t) "Total Revenue" = false) :
    computeFactors db t = none := by
  unfold computeFactors
  by_cases h5 : (pivotIndex (tickerRecs db t)).length < 5
  · rw [if_pos h5]
  · rcases hgate with hg | hg
    · exact absurd hg h5
    · rw [if_neg h5, if_pos (by simp [hg])]

/-- C4, confirmed.  A ticker whose pivoted wide table has fewer than 5
fiscal periods, or whose columns lack `"Total Revenue"`, contributes no
`ScoreRecord`: its ticker never appears in the final result set of
`compute_health_scores`; in particular a 4-period ticker never appears. -/
theorem c4_exclusion_gates (db : List FundamentalRecord) (t : String)
    (hgate : (pivotIndex (tickerRecs db t)).length < 5 ∨
      hasMetricColumn (tickerRecs db t) "Total Revenue" = false) :
    t ∉ (finalScores db).map Prod.fst := by
  intro hmem
  rcases List.mem_map.mp hmem with ⟨p, hp, hfst⟩
  unfold finalScores at hp
  rcases List.mem_filterMap.mp hp with ⟨r, hr, hopt⟩
  rcases Option.map_eq_some'.mp hopt with ⟨h0, hh0, heq⟩
  unfold scoreRows at hr
  rcases List.mem_filterMap.mp hr with ⟨u, hu, hcf⟩
  have htk : r.ticker = u := computeFactors_ticker_eq db u r hcf
  have hpt : p.1 = r.ticker := by rw [← heq]
  have hut : u = t := by rw [← htk, ← hpt, hfst]
  rw [hut, computeFactors_gate_none db t hgate] at hcf
  cases hcf

/-- C4, witness: in `db45` the ticker `BBB` has exactly 4 fiscal periods
and is absent from the final result set. -/
theorem c4_exclusion_gates_witness :
    (pivotIndex (tickerRecs db45 "BBB")).length = 4 ∧
    "BBB" ∉ (finalScores db45).map Prod.fst :=
  ⟨by with_unfolding_all decide,
    c4_exclusion_gates db45 "BBB" (Or.inl (by with_unfolding_all decide))⟩

/-- C7, confirmed.  For every ticker passing both gates: the pivot has at
least 5 rows; `rev_prev` is read at the row four before the latest
(`iloc[-5]`); the growth factor equals
`(rev_latest - rev_prev) / abs(rev_prev)` whenever both revenues are
present and `rev_prev` is non-zero; and growth is null exactly when
`rev_latest` is missing, `rev_prev` is missing, or `rev_prev` is zero. -/
theorem c7_growth_formula (db : List FundamentalRecord) (t : String)
    (fr : FactorRow) (hcf : computeFactors db t = some fr) :
    5 ≤ (pivotIndex (tickerRecs db t)).length ∧
    prevPeriod4 (tickerRecs db t) =
      (pivotIndex (tickerRecs db t)).getD
        ((pivotIndex (tickerRecs db t)).length - 1 - 4) "" ∧
    (∀ a b, revenueLatest (tickerRecs db t) = some a →
      revenuePrev (tickerRecs db t) = some b → b ≠ 0 →
      fr.growth = some ((a - b) / |b|)) ∧
    (fr.growth = none ↔ revenueLatest (tickerRecs db t) = none ∨
      revenuePrev (tickerRecs db t) = none ∨
      revenuePrev (tickerRecs db t) = some 0) := by
  unfold computeFactors at hcf
  by_cases h5 : (pivotIndex (tickerRecs db t)).length < 5
  · rw [if_pos h5] at hcf
    cases hcf
  · rw [if_neg h5] at hcf
    by_cases hrev : !hasMetricColumn (tickerRecs db t) "Total Revenue"
    · rw [if_pos hrev] at hcf
      cases hcf
    · rw [if_neg hrev] at hcf
      injection hcf with h2
      have hg : fr.growth = growthOf (tickerRecs db t) := by rw [← h2]
      refine ⟨Nat.le_of_not_lt h5, ?_, ?_, ?_⟩
      · unfold prevPeriod4
        have harith : (pivotIndex (tickerRecs db t)).length - 1 - 4 =
            (pivotIndex (tickerRecs db t)).length - 5 := by omega
        rw [harith]
      · intro a b ha hb hb0
        rw [hg]
        unfold growthOf
        rw [ha, hb]
        simp [hb0]
      · rw [hg]
        unfold growthOf
        cases hra : revenueLatest (tickerRecs db t) with
        | none => simp
        | some a =>
          cases hrb : revenuePrev (tickerRecs db t) with
          | none => simp
          | some b =>
            by_cases hb0 : b = 0
            · subst hb0
              simp
            · simp [hb0]

/-- C7, witness: for `AAA` in `db5`, latest revenue 120, revenue four rows
earlier 100, growth `(120 - 100) / abs(100) = 1/5`. -/
theorem c7_growth_formula_witness :
    revenueLatest (tickerRecs db5 "AAA") = some 120 ∧
    revenuePrev (tickerRecs db5 "AAA") = some 100 ∧
    (FactorRow.growth ⟨"AAA", some (1/5), none, none, none⟩) =
      some ((120 - 100) / |(100 : ℚ)|) := by
  have hcf : computeFactors db5 "AAA" =
      some ⟨"AAA", some (1/5), none, none, none⟩ := by
    with_unfolding_all decide
  have hL : revenueLatest (tickerRecs db5 "AAA") = some 120 := by
    with_unfolding_all decide
  have hP : revenuePrev (tickerRecs db5 "AAA") = some 100 := by
    with_unfolding_all decide
  exact ⟨hL, hP, (c7_growth_formula db5 "AAA" _ hcf).2.2.1 120 100 hL hP
    (by norm_num)⟩

/-! ## The melt round trip -/

theorem keys_nodup_val_eq {α β : Type} (l : List (α × β))
    (hnd : (l.map Prod.fst).Nodup) {a : α} {b1 b2 : β}
    (h1 : (a, b1) ∈ l) (h2 : (a, b2) ∈ l) : b1 = b2 := by
  induction l with
  | nil => cases h1
  | cons p t ih =>
    rw [List.map_cons, List.nodup_cons] at hnd
    rcases List.mem_cons.mp h1 with e1 | m1
    · rcases List.mem_cons.mp h2 with e2 | m2
      · have he : (a, b1) = ((a, b2) : α × β) := e1.trans e2.symm
        injection he
      · exfalso
        apply hnd.1
        rw [← e1]
        exact List.mem_map.mpr ⟨(a, b2), m2, rfl⟩
    · rcases List.mem_cons.mp h2 with e2 | m2
      · exfalso
        apply hnd.1
        rw [← e2]
        exact List.mem_map.mpr ⟨(a, b1), m1, rfl⟩
      · exact ih hnd.2 m1 m2

theorem aggFirst_of_all_some (l : List (Option ℚ)) (v : ℚ) (hne : l ≠ [])
    (hall : ∀ x ∈ l, x = some v) : aggFirst l = some v := by
  cases l with
  | nil => exact absurd rfl hne
  | cons a t =>
    have ha := hall a (List.mem_cons_self a t)
    rw [ha]
    rfl

/-- C5, corrected.  The round trip holds only under a stronger hypothesis
than "distinct parseable dates": normalizing a wide statement matrix with
`melt_quarterly` and re-pivoting the records by `(fiscal_period, metric)`
reproduces every original non-null cell provided the column dates fall in
pairwise-distinct fiscal quarters (their `quarterLabel`s are distinct) and
the metric row names are distinct — two distinct dates inside the same
quarter collide on `FiscalPeriod` and the pivot then keeps only the first,
as `c5_counterexample` shows. -/
theorem c5_melt_round_trip (tk cat : String) (cols : List Date)
    (rows : List (String × List (Option ℚ)))
    (hq : (cols.map quarterLabel).Nodup)
    (hm : (rows.map Prod.fst).Nodup)
    (m : String) (vals : List (Option ℚ)) (hrow : (m, vals) ∈ rows)
    (j : ℕ) (hj : j < cols.length) (v : ℚ)
    (hcell : vals.getD j none = some v) :
    cellFirst (meltQuarterly tk cat { cols := cols.map some, rows := rows })
      (quarterLabel (cols.getD j ⟨0, 1, 1⟩)) m = some v := by
  have hA : cols.get? j = some (cols.getD j ⟨0, 1, 1⟩) := by
    rw [List.getD_eq_get?, List.get?_eq_get hj]
    rfl
  have hmapget : (cols.map some).getD j none = some (cols.getD j ⟨0, 1, 1⟩) := by
    rw [List.getD_eq_get?, List.get?_map, hA]
    rfl
  have hkept : colKept rows j = true := by
    unfold colKept
    rw [List.any_eq_true]
    refine ⟨(m, vals), hrow, ?_⟩
    rw [hcell]
    rfl
  have hrec0 : (⟨tk, quarterLabel (cols.getD j ⟨0, 1, 1⟩), m, cat, some v⟩ :
      FundamentalRecord) ∈
        meltQuarterly tk cat { cols := cols.map some, rows := rows } := by
    rw [mem_meltQuarterly]
    refine ⟨m, vals, hrow, ?_⟩
    rw [mem_meltRow]
    exact ⟨j, by simpa using hj, hkept, cols.getD j ⟨0, 1, 1⟩, hmapget,
      by rw [hcell]⟩
  have hallval : ∀ rec : FundamentalRecord,
      rec ∈ meltQuarterly tk cat { cols := cols.map some, rows := rows } →
      rec.fiscalPeriod = quarterLabel (cols.getD j ⟨0, 1, 1⟩) →
      rec.metric = m → rec.value = some v := by
    intro rec hrec hper hmet
    rcases mem_meltQuarterly.mp hrec with ⟨m2, vals2, hrow2, hmr⟩
    rcases mem_meltRow.mp hmr with ⟨j2, hj2, hkept2, d2, hd2, hrec2⟩
    subst hrec2
    have hm2 : m2 = m := hmet
    subst hm2
    have hvals2 : vals2 = vals := keys_nodup_val_eq rows hm hrow2 hrow
    subst hvals2
    have hj2len : j2 < cols.length := by simpa using hj2
    have hd2get : cols.get? j2 = some d2 := by
      rw [List.getD_eq_get?, List.get?_map] at hd2
      cases hc : cols.get? j2 with
      | none =>
        rw [hc] at hd2
        cases hd2
      | some c =>
        rw [hc] at hd2
        cases hd2
        rfl
    have hlab2 : (cols.map quarterLabel).get? j2 = some (quarterLabel d2) := by
      rw [List.get?_map, hd2get]
      rfl
    have hlabj : (cols.map quarterLabel).get? j =
        some (quarterLabel (cols.getD j ⟨0, 1, 1⟩)) := by
      rw [List.get?_map, hA]
      rfl
    have hql : quarterLabel d2 = quarterLabel (cols.getD j ⟨0, 1, 1⟩) := hper
    have hj2j : j2 = j := by
      refine List.get?_inj (by simpa using hj2len) hq ?_
      rw [hlab2, hlabj, hql]
    subst hj2j
    exact hcell ▸ rfl
  show aggFirst (valuesFor
    (meltQuarterly tk cat { cols := cols.map some, rows := rows })
    (quarterLabel (cols.getD j ⟨0, 1, 1⟩)) m) = some v
  apply aggFirst_of_all_some
  · unfold valuesFor
    have hfil : (⟨tk, quarterLabel (cols.getD j ⟨0, 1, 1⟩), m, cat, some v⟩ :
        FundamentalRecord) ∈
          ((meltQuarterly tk cat { cols := cols.map some, rows := rows }).filter
            (fun r => r.fiscalPeriod == quarterLabel (cols.getD j ⟨0, 1, 1⟩) &&
              r.metric == m)) := by
      rw [List.mem_filter]
      exact ⟨hrec0, by simp⟩
    exact List.ne_nil_of_mem (List.mem_map.mpr ⟨_, hfil, rfl⟩)
  · intro x hx
    unfold valuesFor at hx
    rcases List.mem_map.mp hx with ⟨rec, hrecf, hval⟩
    rcases List.mem_filter.mp hrecf with ⟨hrecmem, hpred⟩
    rw [Bool.and_eq_true] at hpred
    rw [← hval]
    exact hallval rec hrecmem (by exact beq_iff_eq.mp hpred.1)
      (by exact beq_iff_eq.mp hpred.2)

/-- C5, counterexample to the claim as stated: `exMatSameQ` has two
distinct, parseable column dates in the same calendar quarter; both cells
are non-null (1 and 2) but after melting and re-pivoting the single
`(2023Q1, M)` cell holds 1, so the original cell value 2 is not
reproduced. -/
theorem c5_counterexample :
    exMatSameQ.cols = [some ⟨2023, 1, 15⟩, some ⟨2023, 2, 15⟩] ∧
    (⟨2023, 1, 15⟩ : Date) ≠ ⟨2023, 2, 15⟩ ∧
    quarterLabel ⟨2023, 2, 15⟩ = quarterLabel ⟨2023, 1, 15⟩ ∧
    (exMatSameQ.rows.getD 0 ("", [])).2.getD 1 none = some 2 ∧
    cellFirst (meltQuarterly "T" "IncomeStatement" exMatSameQ)
      (quarterLabel ⟨2023, 2, 15⟩) "M" = some 1 ∧
    some (1 : ℚ) ≠ some 2 := by
  refine ⟨rfl, by decide, by decide, by with_unfolding_all decide,
    by with_unfolding_all decide, by with_unfolding_all decide⟩

/-- C5, witness for the corrected claim: melting `exMatGood` (distinct
quarters, distinct metrics) and re-pivoting reproduces the non-null cell
`(Revenue, 2023-01-31) = 7`. -/
theorem c5_melt_round_trip_witness :
    cellFirst (meltQuarterly "T" "IncomeStatement"
      { cols := colsGood.map some, rows := exMatGood.rows })
      (quarterLabel (colsGood.getD 0 ⟨0, 1, 1⟩)) "Revenue" = some 7 :=
  c5_melt_round_trip "T" "IncomeStatement" colsGood exMatGood.rows
    (by with_unfolding_all decide) (by with_unfolding_all decide)
    "Revenue" [some 7, some 9] (by with_unfolding_all decide) 0
    (by with_unfolding_all decide) 7 (by with_unfolding_all decide)
